import Mathlib

/-
Verification development for the Monte Carlo stochastic simulation engine
(geometric Brownian motion, correlated multivariate geometric Brownian
motion, path simulation orchestration, path evaluation).  The f64 values of
the source are modelled as real numbers; fallible constructors that abort via
a failed assertion are modelled with an explicit panic outcome.
-/

/-- Scalar geometric Brownian motion model parameters, from gbm.rs. -/
structure GeometricBrownianMotion where
  initial_value : ℝ
  mu : ℝ
  sigma : ℝ
  dt : ℝ

/-- Constructor of the scalar GBM; drift becomes mu and vola becomes sigma. -/
def GeometricBrownianMotion.new (initial_value drift vola dt : ℝ) :
    GeometricBrownianMotion :=
  { initial_value := initial_value, mu := drift, sigma := vola, dt := dt }

/-- Euler step of the scalar GBM: the state change is
st * (mu * dt + sigma * sqrt dt * z) and it is added to the state. -/
noncomputable def GeometricBrownianMotion.step
    (g : GeometricBrownianMotion) (st z : ℝ) : ℝ :=
  let d_st := st * (g.mu * g.dt + g.sigma * Real.sqrt g.dt * z)
  st + d_st

/-- Analytic step of the scalar GBM:
st * exp (dt * (mu - sigma ^ 2 / 2) + sqrt dt * sigma * z). -/
noncomputable def GeometricBrownianMotion.step_analytic
    (g : GeometricBrownianMotion) (st z : ℝ) : ℝ :=
  let ret := g.dt * (g.mu - g.sigma ^ 2 / 2) + Real.sqrt g.dt * g.sigma * z
  st * Real.exp ret

/-- Loop body of generate_path: starting from the current state, apply step to
each innovation and push every state reached. -/
noncomputable def generatePathLoop (g : GeometricBrownianMotion) (curr : ℝ) :
    List ℝ → List ℝ
  | [] => []
  | z :: zs =>
      let next := g.step curr z
      next :: generatePathLoop g next zs

/-- generate_path of the scalar GBM: the supplied initial value followed by the
states reached after each innovation. -/
noncomputable def GeometricBrownianMotion.generate_path
    (g : GeometricBrownianMotion) (initial_value : ℝ)
    (standard_normals : List ℝ) : List ℝ :=
  initial_value :: generatePathLoop g initial_value standard_normals

/-- Loop body of generate_in_place: starting from the current state, each
buffer slot holding an innovation is overwritten with the state reached after
consuming it. -/
noncomputable def generateInPlaceLoop (g : GeometricBrownianMotion) (curr : ℝ) :
    List ℝ → List ℝ
  | [] => []
  | z :: zs =>
      let next := g.step curr z
      next :: generateInPlaceLoop g next zs

/-- generate_in_place of the scalar GBM: the buffer of innovations is replaced
by the cumulative states, starting from the configured initial value; the
initial value itself is not included in the buffer. -/
noncomputable def GeometricBrownianMotion.generate_in_place
    (g : GeometricBrownianMotion) (standard_normals : List ℝ) : List ℝ :=
  generateInPlaceLoop g g.initial_value standard_normals

/-- The GBM configuration used by the benchmarks and the worked example of the
spec: S0 = 300, drift 0.01, vola 50 / 365, dt 0.1. -/
noncomputable def gbmBench : GeometricBrownianMotion :=
  GeometricBrownianMotion.new 300 0.01 (50 / 365) 0.1

/-- Outcome of a Rust constructor that can abort through a failed assertion:
either the constructed value or a panic. -/
inductive PanicOr (α : Type) where
  | panicked : PanicOr α
  | ok (value : α) : PanicOr α

/-- Correlated multivariate geometric Brownian motion model parameters, from
multivariate_gbm.rs.  The two dimensional array of the source is modelled as
the list of its rows. -/
structure MultivariateGeometricBrownianMotion where
  initial_values : List ℝ
  drifts : List ℝ
  cholesky_factor : List (List ℝ)
  dt : ℝ

/-- Constructor of the multivariate GBM.  The source asserts that the shape of
the initial values equals the shape of the drifts and that the Cholesky factor
is square of the same dimension; a failed assertion is a panic. -/
def MultivariateGeometricBrownianMotion.new
    (initial_values drifts : List ℝ) (cholesky_factor : List (List ℝ))
    (dt : ℝ) : PanicOr MultivariateGeometricBrownianMotion :=
  if initial_values.length = drifts.length then
    if cholesky_factor.length = drifts.length ∧
        ∀ row ∈ cholesky_factor, row.length = drifts.length then
      PanicOr.ok
        { initial_values := initial_values, drifts := drifts,
          cholesky_factor := cholesky_factor, dt := dt }
    else PanicOr.panicked
  else PanicOr.panicked

/-- Dot product of two vectors, as used for each row of the Cholesky factor. -/
noncomputable def dotList (xs ys : List ℝ) : ℝ :=
  (List.zipWith (fun a b => a * b) xs ys).sum

/-- Matrix times vector: the dot product of every row with the vector. -/
noncomputable def matVec (m : List (List ℝ)) (v : List ℝ) : List ℝ :=
  m.map fun row => dotList row v

/-- One step of the multivariate GBM: the relative change is
dt * drifts + sqrt dt * (cholesky_factor * z) elementwise, the absolute change
is the relative change times the state, and the result is the state plus the
absolute change. -/
noncomputable def MultivariateGeometricBrownianMotion.sample
    (m : MultivariateGeometricBrownianMotion) (st z : List ℝ) : List ℝ :=
  let d_st_s0 := List.zipWith (fun drift lz => m.dt * drift + Real.sqrt m.dt * lz)
    m.drifts (matVec m.cholesky_factor z)
  let d_st := List.zipWith (fun dst s => dst * s) d_st_s0 st
  List.zipWith (fun s d => s + d) st d_st

/-- The multivariate GBM configuration of the embedded regression test. -/
noncomputable def mvGbmTest : MultivariateGeometricBrownianMotion :=
  { initial_values := [1, 2, 3], drifts := [0.1, 0.2, 0.3],
    cholesky_factor := [[1, 0.5, 0.1], [0, 0.6, 0.7], [0, 0, 0.8]], dt := 4 }

/-- A one dimensional multivariate GBM configuration used as concrete input. -/
noncomputable def mvGbmDim1 : MultivariateGeometricBrownianMotion :=
  { initial_values := [1], drifts := [0], cholesky_factor := [[1]], dt := 1 }

/-- State of a pseudo random generator, modelled as the stream of standard
normal draws it will produce together with the position of the next draw. -/
structure RngState where
  stream : Nat → ℝ
  idx : Nat

/-- Drawing from the generator yields the value at the current position and
advances the position. -/
def RngState.next (r : RngState) : ℝ × RngState :=
  (r.stream r.idx, { stream := r.stream, idx := r.idx + 1 })

/-- The Distribution implementation of the scalar GBM: draw one standard
normal from the generator and apply the analytic step to the configured
initial value. -/
noncomputable def GeometricBrownianMotion.distribution_sample
    (g : GeometricBrownianMotion) (r : RngState) : ℝ × RngState :=
  let drawn := RngState.next r
  (g.step_analytic g.initial_value drawn.1, drawn.2)

/-- Repeated calls of the Distribution implementation, threading the generator
state through the calls and collecting the returned values in order. -/
noncomputable def GeometricBrownianMotion.sampleCalls
    (g : GeometricBrownianMotion) (r : RngState) : Nat → List ℝ
  | 0 => []
  | n + 1 =>
      let out := g.distribution_sample r
      out.1 :: g.sampleCalls out.2 n

/-- An iterator, modelled as a map from position to optional element, where
none means the iterator is exhausted at that position. -/
def distIterOfStream (stream : Nat → ℝ) : Nat → Option ℝ :=
  fun pos => some (stream pos)

/-- First phase of choose_multiple: collect up to amount elements from the
iterator into the reservoir, stopping early if the iterator ends. -/
def collectTake (iter : Nat → Option ℝ) (start : Nat) : Nat → List ℝ
  | 0 => []
  | n + 1 =>
      match iter start with
      | none => []
      | some x => x :: collectTake iter (start + 1) n

/-- One reservoir iteration of choose_multiple: a slot index is drawn from the
ambient generator in the range below i + 1 + amount, and when that index lies
inside the reservoir the slot is replaced by the element. -/
def reservoirStep (ambient : Nat → Nat) (amount i : Nat) (reservoir : List ℝ)
    (elem : ℝ) : List ℝ :=
  let k := ambient i % (i + 1 + amount)
  if k < reservoir.length then reservoir.set k elem else reservoir

/-- The reservoir loop of choose_multiple, with fuel bounding the number of
observed iterations: the loop returns the reservoir only when the iterator is
exhausted, and none when the fuel runs out while the loop is still running. -/
def chooseMultipleLoop (ambient : Nat → Nat) (iter : Nat → Option ℝ)
    (reservoir : List ℝ) (amount i pos : Nat) : Nat → Option (List ℝ)
  | 0 => none
  | fuel + 1 =>
      match iter pos with
      | none => some reservoir
      | some elem =>
          chooseMultipleLoop ambient iter
            (reservoirStep ambient amount i reservoir elem) amount (i + 1)
            (pos + 1) fuel

/-- choose_multiple of the rand crate: fill the reservoir with the first
amount elements; if the iterator had that many elements, keep consuming it to
completion through the reservoir loop. -/
def choose_multiple (ambient : Nat → Nat) (iter : Nat → Option ℝ)
    (amount fuel : Nat) : Option (List ℝ) :=
  let reservoir := collectTake iter 0 amount
  if reservoir.length = amount then
    chooseMultipleLoop ambient iter reservoir amount 0 amount fuel
  else some reservoir

/-- The reservoir content reached after a given number of iterations of the
choose_multiple loop. -/
def chooseMultipleReservoir (ambient : Nat → Nat) (iter : Nat → Option ℝ)
    (reservoir : List ℝ) (amount i pos : Nat) : Nat → List ℝ
  | 0 => reservoir
  | iters + 1 =>
      match iter pos with
      | none => reservoir
      | some elem =>
          chooseMultipleReservoir ambient iter
            (reservoirStep ambient amount i reservoir elem) amount (i + 1)
            (pos + 1) iters

/-- Split a list into consecutive chunks of the given size, as the step_by
iteration over the drawn normals does. -/
def chunksOf (dim : Nat) : List ℝ → List (List ℝ)
  | [] => []
  | x :: xs => (x :: xs.take (dim - 1)) :: chunksOf dim (xs.drop (dim - 1))
termination_by l => l.length
decreasing_by simp; omega

/-- The path construction of sample_path: start from the initial values and
push the sample of the last state with each chunk of normals. -/
noncomputable def samplePathBuild (m : MultivariateGeometricBrownianMotion)
    (path_zs : List ℝ) : List (List ℝ) :=
  (chunksOf m.initial_values.length path_zs).foldl
    (fun path zs => path ++ [m.sample (path.getLastD []) zs]) [m.initial_values]

/-- sample_path of the multivariate GBM with fuel: the method draws
dim * nr_steps normals from the supplied iterator through choose_multiple,
using an ambient thread local generator for the reservoir indices, and then
folds the chunks into a path.  The result is none when choose_multiple has not
returned within the fuel. -/
noncomputable def MultivariateGeometricBrownianMotion.sample_path_fuel
    (m : MultivariateGeometricBrownianMotion) (nr_steps : Nat)
    (normal_distr : Nat → Option ℝ) (ambient : Nat → Nat) (fuel : Nat) :
    Option (List (List ℝ)) :=
  match choose_multiple ambient normal_distr
      (m.initial_values.length * nr_steps) fuel with
  | none => none
  | some path_zs => some (samplePathBuild m path_zs)

/-- The internal reservoir state of the choose_multiple call inside
sample_path after a given number of loop iterations. -/
def MultivariateGeometricBrownianMotion.sample_path_reservoir
    (m : MultivariateGeometricBrownianMotion) (nr_steps : Nat)
    (normal_distr : Nat → Option ℝ) (ambient : Nat → Nat) (iters : Nat) :
    List ℝ :=
  let amount := m.initial_values.length * nr_steps
  chooseMultipleReservoir ambient normal_distr
    (collectTake normal_distr 0 amount) amount 0 amount iters

/-- Monte Carlo European basket option configuration, from basket_option.rs. -/
structure MonteCarloEuropeanBasketOption where
  weights : List ℝ
  asset_prices : List ℝ
  rf_rates : List ℝ
  cholesky_factor : List (List ℝ)
  strike : ℝ
  time_to_expiration : ℝ
  nr_paths : Nat
  nr_steps : Nat
  seed_nr : Nat

open Classical in
/-- Constructor of the basket option.  The source folds the weights with
addition and asserts that the sum equals 1.0; a failed assertion is a panic. -/
noncomputable def MonteCarloEuropeanBasketOption.new
    (weights asset_prices rf_rates : List ℝ) (cholesky_factor : List (List ℝ))
    (strike time_to_expiration : ℝ) (nr_paths nr_steps : Nat)
    (seed_nr : Nat) : PanicOr MonteCarloEuropeanBasketOption :=
  let weight_sum := weights.foldl (fun acc c => acc + c) 0
  if weight_sum = 1 then
    PanicOr.ok
      { weights := weights, asset_prices := asset_prices, rf_rates := rf_rates,
        cholesky_factor := cholesky_factor, strike := strike,
        time_to_expiration := time_to_expiration, nr_paths := nr_paths,
        nr_steps := nr_steps, seed_nr := seed_nr }
  else PanicOr.panicked

/-- Modelled from the spec: the Monte Carlo path simulator lives in the
monte_carlo module, which is not among the given source files.  The seeded
random source is modelled as the stream of standard normal draws it produces;
per the draw ordering contract the innovations are consumed from this single
stream in path major, step minor order, so path i consumes the positions from
i * nr_steps up to i * nr_steps + nr_steps - 1. -/
def pathDraws (stream : Nat → ℝ) (nr_steps i : Nat) : List ℝ :=
  (List.range nr_steps).map fun j => stream (i * nr_steps + j)

/-- Modelled from the spec: simulate_paths of the missing monte_carlo module
draws the innovations for each path from the stream and lets the dynamics
produce the path from its configured initial value. -/
noncomputable def simulate_paths (stream : Nat → ℝ) (nr_paths nr_steps : Nat)
    (g : GeometricBrownianMotion) : List (List ℝ) :=
  (List.range nr_paths).map fun i =>
    g.generate_path g.initial_value (pathDraws stream nr_steps i)

/-- Modelled from the spec: simulate_paths_with of the missing monte_carlo
module draws the raw innovations for each path and delegates the transition
logic to the caller supplied step function. -/
def simulate_paths_with (stream : Nat → ℝ) (nr_paths nr_steps : Nat)
    (step_fn : List ℝ → List ℝ) : List (List ℝ) :=
  (List.range nr_paths).map fun i => step_fn (pathDraws stream nr_steps i)

/-- Modelled from the spec: simulate_paths_apply_in_place of the missing
monte_carlo module; the step function transforms the raw innovation buffer of
each path into the realized states in place, and the initial state is then
prepended, following the spec sentence that the in place output once the
initial value is prepended must equal the generate_path output. -/
def simulate_paths_apply_in_place (stream : Nat → ℝ) (nr_paths nr_steps : Nat)
    (initial_value : ℝ) (step_fn : List ℝ → List ℝ) : List (List ℝ) :=
  (List.range nr_paths).map fun i =>
    initial_value :: step_fn (pathDraws stream nr_steps i)

/-- Modelled from the spec: evaluate_average of the PathEvaluator in the
missing monte_carlo module applies the reduction function to every path,
keeps only the successful results, and divides their sum by their count;
when no path evaluates successfully there is no result. -/
noncomputable def evaluate_average (α : Type) (paths : List α)
    (f : α → Option ℝ) : Option ℝ :=
  let vals := paths.filterMap f
  if vals.length = 0 then none else some (vals.sum / (vals.length : ℝ))

/-- A reduction function on three paths named by numbers that rejects exactly
the second path and maps the others to their number. -/
noncomputable def exclusionF (n : Nat) : Option ℝ :=
  if n = 2 then none else some (n : ℝ)

/-- Claim C2: for every GBM configuration and every state S and innovation z,
the Euler step satisfies step S z = S + S * (mu * dt + sigma * sqrt dt * z);
and for the configuration S0 = 300, mu = 0.01, sigma = 50 / 365, dt = 0.1, the
result of step 300 0 equals 300.3 exactly. -/
theorem claim_C2 :
    (∀ (g : GeometricBrownianMotion) (S z : ℝ),
      g.step S z = S + S * (g.mu * g.dt + g.sigma * Real.sqrt g.dt * z)) ∧
    gbmBench.step 300 0 = 300.3 := by
  constructor
  · intro g S z
    simp [GeometricBrownianMotion.step]
  · simp [gbmBench, GeometricBrownianMotion.new, GeometricBrownianMotion.step]
    norm_num

/-- Adding the elementwise product of the changes and the state to the state is
the same as one combined elementwise traversal. -/
theorem zipWith_add_mul (st delta : List ℝ) :
    List.zipWith (fun s d => s + d) st (List.zipWith (fun dst s => dst * s) delta st) =
      List.zipWith (fun s d => s + d * s) st delta := by
  induction st generalizing delta with
  | nil => simp
  | cons s st ih =>
      cases delta with
      | nil => simp
      | cons d ds => simpa using ih ds

/-- Claim C3: for every multivariate GBM configuration and every state vector
S and innovation vector z, the step satisfies
S i + (dt * drift i + sqrt dt * (L * z) i) * S i elementwise; and for the
embedded regression configuration the sample of the initial values with
z = [0.1, -0.1, 0.05] equals [1.51, 3.5, 6.84] exactly. -/
theorem claim_C3 :
    (∀ (m : MultivariateGeometricBrownianMotion) (st z : List ℝ),
      m.sample st z = List.zipWith (fun s delta => s + delta * s) st
        (List.zipWith (fun drift lz => m.dt * drift + Real.sqrt m.dt * lz)
          m.drifts (matVec m.cholesky_factor z))) ∧
    mvGbmTest.sample mvGbmTest.initial_values [0.1, -0.1, 0.05] =
      [1.51, 3.5, 6.84] := by
  have h4 : Real.sqrt 4 = 2 := by
    rw [show (4 : ℝ) = 2 ^ 2 by norm_num]
    exact Real.sqrt_sq (by norm_num)
  constructor
  · intro m st z
    simpa [MultivariateGeometricBrownianMotion.sample] using
      zipWith_add_mul st (List.zipWith (fun drift lz => m.dt * drift + Real.sqrt m.dt * lz)
        m.drifts (matVec m.cholesky_factor z))
  · simp only [mvGbmTest, MultivariateGeometricBrownianMotion.sample, matVec, dotList,
      List.map_cons, List.map_nil, List.zipWith_cons_cons, List.zipWith_nil_right,
      List.zipWith_nil_left, List.sum_cons, List.sum_nil, h4]
    norm_num

/-- The loop of generate_path and the loop of generate_in_place compute the
same list of states from the same current state and innovations. -/
theorem generatePathLoop_eq_inPlaceLoop (g : GeometricBrownianMotion)
    (curr : ℝ) (zs : List ℝ) :
    generatePathLoop g curr zs = generateInPlaceLoop g curr zs := by
  induction zs generalizing curr with
  | nil => rfl
  | cons z zs ih => simp [generatePathLoop, generateInPlaceLoop, ih]

/-- The loop of generate_path returns one state per innovation. -/
theorem generatePathLoop_length (g : GeometricBrownianMotion) (curr : ℝ)
    (zs : List ℝ) : (generatePathLoop g curr zs).length = zs.length := by
  induction zs generalizing curr with
  | nil => rfl
  | cons z zs ih => simp [generatePathLoop, ih]

/-- Claim C4: for every GBM configuration and every buffer of innovations,
running generate_in_place and prepending the configured initial value yields
exactly the generate_path output for that initial value and the same
innovations; equivalently element i of the in place buffer is element i + 1 of
the generate_path output. -/
theorem claim_C4 :
    ∀ (g : GeometricBrownianMotion) (standard_normals : List ℝ),
      g.initial_value :: g.generate_in_place standard_normals =
        g.generate_path g.initial_value standard_normals ∧
      ∀ i : Nat, (g.generate_in_place standard_normals)[i]? =
        (g.generate_path g.initial_value standard_normals)[i + 1]? := by
  intro g standard_normals
  have h : g.initial_value :: g.generate_in_place standard_normals =
      g.generate_path g.initial_value standard_normals := by
    simp [GeometricBrownianMotion.generate_in_place,
      GeometricBrownianMotion.generate_path, generatePathLoop_eq_inPlaceLoop]
  refine ⟨h, fun i => ?_⟩
  rw [← h]
  simp

/-- Claim C1: for a fixed innovation stream determined by the seed and fixed
configuration, nr_paths and nr_steps, two runs of simulate_paths yield the
identical ensemble, and simulate_paths, simulate_paths_with applied with the
generate_path step function, and simulate_paths_apply_in_place applied with
the generate_in_place step function all yield the identical ensemble. -/
theorem claim_C1 :
    ∀ (stream1 stream2 : Nat → ℝ) (nr_paths nr_steps : Nat)
      (g : GeometricBrownianMotion),
      (∀ n, stream1 n = stream2 n) →
      simulate_paths stream1 nr_paths nr_steps g =
        simulate_paths stream2 nr_paths nr_steps g ∧
      simulate_paths stream1 nr_paths nr_steps g =
        simulate_paths_with stream1 nr_paths nr_steps
          (fun zs => g.generate_path g.initial_value zs) ∧
      simulate_paths stream1 nr_paths nr_steps g =
        simulate_paths_apply_in_place stream1 nr_paths nr_steps g.initial_value
          (fun zs => g.generate_in_place zs) := by
  intro stream1 stream2 nr_paths nr_steps g h
  have hs : stream1 = stream2 := funext h
  subst hs
  refine ⟨rfl, rfl, ?_⟩
  simp [simulate_paths, simulate_paths_apply_in_place,
    GeometricBrownianMotion.generate_path,
    GeometricBrownianMotion.generate_in_place, generatePathLoop_eq_inPlaceLoop]

/-- Concrete instance of claim C1: at stream n = n, two paths, one step and
the benchmark GBM configuration, the direct and the in place strategies yield
the identical ensemble. -/
theorem claim_C1_witness :
    simulate_paths (fun n => (n : ℝ)) 2 1 gbmBench =
      simulate_paths_apply_in_place (fun n => (n : ℝ)) 2 1
        gbmBench.initial_value (fun zs => gbmBench.generate_in_place zs) :=
  (claim_C1 (fun n => (n : ℝ)) (fun n => (n : ℝ)) 2 1 gbmBench
    (fun _ => rfl)).2.2

/-- A constructed value is never equal to a panic outcome. -/
theorem panicOr_ok_ne {α : Type} (a : α) :
    PanicOr.ok a ≠ PanicOr.panicked := fun h => PanicOr.noConfusion h

/-- Counterexample to claim C5: constructing a multivariate GBM whose Cholesky
factor is 1 by 1 while the drift and initial value vectors have length 2
panics, and constructing a basket option whose weights sum to 3 / 4 panics;
the failures are panics from failed assertions, not ConfigurationError
values. -/
theorem claim_C5_counterexample :
    MultivariateGeometricBrownianMotion.new [1, 2] [1, 2] [[1]] 1 =
      PanicOr.panicked ∧
    MonteCarloEuropeanBasketOption.new [1 / 2, 1 / 4] [1, 1] [1, 1]
        [[1, 0], [0, 1]] 1 1 1 1 1 = PanicOr.panicked := by
  constructor
  · simp [MultivariateGeometricBrownianMotion.new]
  · have h : (List.foldl (fun acc c => acc + c) (0 : ℝ) [1 / 2, 1 / 4]) ≠ 1 := by
      norm_num [List.foldl_cons, List.foldl_nil]
    simp [MonteCarloEuropeanBasketOption.new, h]
    norm_num

/-- Claim C5 as amended: invalid configuration fails fast at construction
time, before any simulation or sampling work, but through a panicking
assertion rather than a ConfigurationError value: the multivariate GBM
constructor panics exactly when the initial value, drift and Cholesky factor
shapes mismatch, and the basket option constructor panics exactly when the
weights do not sum to 1. -/
theorem claim_C5 :
    (∀ (initial_values drifts : List ℝ) (chol : List (List ℝ)) (dt : ℝ),
      MultivariateGeometricBrownianMotion.new initial_values drifts chol dt =
          PanicOr.panicked ↔
        (initial_values.length ≠ drifts.length ∨
          ¬(chol.length = drifts.length ∧
            ∀ row ∈ chol, row.length = drifts.length))) ∧
    (∀ (weights asset_prices rf_rates : List ℝ) (chol : List (List ℝ))
        (strike tte : ℝ) (np ns seed : Nat),
      MonteCarloEuropeanBasketOption.new weights asset_prices rf_rates chol
          strike tte np ns seed = PanicOr.panicked ↔
        weights.foldl (fun acc c => acc + c) 0 ≠ 1) := by
  constructor
  · intro initial_values drifts chol dt
    by_cases h1 : initial_values.length = drifts.length
    · by_cases h2 : chol.length = drifts.length ∧
          ∀ row ∈ chol, row.length = drifts.length
      · simp only [MultivariateGeometricBrownianMotion.new, if_pos h1, if_pos h2]
        exact iff_of_false (panicOr_ok_ne _) (by
          rintro (hr | hr)
          · exact hr h1
          · exact hr h2)
      · simp only [MultivariateGeometricBrownianMotion.new, if_pos h1, if_neg h2]
        exact iff_of_true (by trivial) (Or.inr h2)
    · simp only [MultivariateGeometricBrownianMotion.new, if_neg h1]
      exact iff_of_true (by trivial) (Or.inl h1)
  · intro weights asset_prices rf_rates chol strike tte np ns seed
    by_cases h : weights.foldl (fun acc c => acc + c) 0 = 1
    · simp only [MonteCarloEuropeanBasketOption.new, if_pos h]
      exact iff_of_false (panicOr_ok_ne _) (fun hne => hne h)
    · simp only [MonteCarloEuropeanBasketOption.new, if_neg h]
      exact iff_of_true (by trivial) h

/-- The filtered projection of a list is empty exactly when the function
rejects every element. -/
theorem filterMap_nil_iff {α : Type} (f : α → Option ℝ) (l : List α) :
    l.filterMap f = [] ↔ ∀ a ∈ l, f a = none := by
  induction l with
  | nil => simp
  | cons a l ih =>
      cases hfa : f a with
      | none => simp [List.filterMap_cons, hfa, ih]
      | some b => simp [List.filterMap_cons, hfa]

/-- Claim C6: evaluate_average returns nothing exactly when the ensemble is
empty or the reduction function yields nothing for every path, and otherwise
returns the sum of the successful evaluations divided by their count, so paths
where the function yields nothing are excluded from numerator and
denominator. -/
theorem claim_C6 :
    ∀ (α : Type) (paths : List α) (f : α → Option ℝ),
      (evaluate_average α paths f = none ↔
        paths = [] ∨ ∀ p ∈ paths, f p = none) ∧
      (paths.filterMap f ≠ [] →
        evaluate_average α paths f =
          some ((paths.filterMap f).sum /
            ((paths.filterMap f).length : ℝ))) := by
  intro α paths f
  constructor
  · constructor
    · intro hnone
      by_cases h : paths.filterMap f = []
      · exact Or.inr ((filterMap_nil_iff f paths).mp h)
      · exfalso
        have hlen : (paths.filterMap f).length ≠ 0 := by
          simpa [List.length_eq_zero] using h
        simp [evaluate_average, hlen] at hnone
    · intro hor
      have hall : ∀ p ∈ paths, f p = none := by
        rcases hor with h | h
        · subst h; simp
        · exact h
      have h0 : paths.filterMap f = [] := (filterMap_nil_iff f paths).mpr hall
      simp [evaluate_average, h0]
  · intro hne
    have hlen : (paths.filterMap f).length ≠ 0 := by
      simpa [List.length_eq_zero] using hne
    simp [evaluate_average, hlen]

/-- Concrete instance of claim C6: on an ensemble of three paths where the
reduction function rejects exactly the second one, evaluate_average divides by
the count of the two successful evaluations. -/
theorem claim_C6_witness :
    (([1, 2, 3] : List Nat).filterMap exclusionF ≠ []) ∧
    evaluate_average Nat [1, 2, 3] exclusionF =
      some ((([1, 2, 3] : List Nat).filterMap exclusionF).sum /
        ((([1, 2, 3] : List Nat).filterMap exclusionF).length : ℝ)) := by
  have hne : ([1, 2, 3] : List Nat).filterMap exclusionF ≠ [] := by
    norm_num [exclusionF, List.filterMap_cons, List.cons_ne_nil]
  exact ⟨hne, (claim_C6 Nat [1, 2, 3] exclusionF).2 hne⟩

/-- Collecting from a never ending iterator always yields exactly the
requested number of elements. -/
theorem collectTake_distIter_length (stream : Nat → ℝ) :
    ∀ (n start : Nat),
      (collectTake (distIterOfStream stream) start n).length = n := by
  intro n
  induction n with
  | zero => intro start; rfl
  | succ n ih => intro start; simp [collectTake, distIterOfStream, ih]

/-- On a never ending iterator the reservoir loop of choose_multiple never
returns, whatever the reservoir, indices and fuel. -/
theorem chooseMultipleLoop_distIter_none (ambient : Nat → Nat)
    (stream : Nat → ℝ) :
    ∀ (fuel : Nat) (reservoir : List ℝ) (amount i pos : Nat),
      chooseMultipleLoop ambient (distIterOfStream stream) reservoir amount i
        pos fuel = none := by
  intro fuel
  induction fuel with
  | zero => intro reservoir amount i pos; rfl
  | succ fuel ih =>
      intro reservoir amount i pos
      simp [chooseMultipleLoop, distIterOfStream, ih]

/-- Claim C7, settled against the code: generate_path of the scalar GBM does
return a path of length n + 1 whose first element is the supplied initial
value, but sample_path of the multivariate GBM never returns, because it
hands the never ending innovation iterator to choose_multiple, whose
reservoir loop only exits once the iterator is exhausted; shown here at the
concrete one dimensional configuration with one step and any stream, ambient
generator and fuel. -/
theorem claim_C7 :
    (∀ (g : GeometricBrownianMotion) (initial_value : ℝ) (zs : List ℝ),
      (g.generate_path initial_value zs).length = zs.length + 1 ∧
      (g.generate_path initial_value zs).head? = some initial_value) ∧
    (∀ (stream : Nat → ℝ) (ambient : Nat → Nat) (fuel : Nat),
      mvGbmDim1.sample_path_fuel 1 (distIterOfStream stream) ambient fuel =
        none) := by
  constructor
  · intro g initial_value zs
    constructor
    · simp [GeometricBrownianMotion.generate_path, generatePathLoop_length]
    · rfl
  · intro stream ambient fuel
    simp [MultivariateGeometricBrownianMotion.sample_path_fuel,
      choose_multiple, mvGbmDim1, collectTake_distIter_length,
      chooseMultipleLoop_distIter_none]

/-- Claim C8: the analytic step satisfies
step_analytic S z = S * exp ((mu - sigma ^ 2 / 2) * dt + sigma * sqrt dt * z),
and the Euler and analytic forms are numerically distinct: at mu = 0,
sigma = 1, dt = 1, state 1 and innovation 0 the Euler step yields 1 while the
analytic step yields exp (- (1 / 2)). -/
theorem claim_C8 :
    (∀ (g : GeometricBrownianMotion) (S z : ℝ),
      g.step_analytic S z =
        S * Real.exp ((g.mu - g.sigma ^ 2 / 2) * g.dt +
          g.sigma * Real.sqrt g.dt * z)) ∧
    ∃ (g : GeometricBrownianMotion) (S z : ℝ),
      g.step S z ≠ g.step_analytic S z := by
  constructor
  · intro g S z
    have h : g.dt * (g.mu - g.sigma ^ 2 / 2) + Real.sqrt g.dt * g.sigma * z =
        (g.mu - g.sigma ^ 2 / 2) * g.dt + g.sigma * Real.sqrt g.dt * z := by
      ring
    simp [GeometricBrownianMotion.step_analytic, h]
  · refine ⟨GeometricBrownianMotion.new 1 0 1 1, 1, 0, ?_⟩
    have hstep : (GeometricBrownianMotion.new 1 0 1 1).step 1 0 = 1 := by
      simp [GeometricBrownianMotion.new, GeometricBrownianMotion.step]
    have hana : (GeometricBrownianMotion.new 1 0 1 1).step_analytic 1 0 =
        Real.exp (-(1 / 2)) := by
      simp [GeometricBrownianMotion.new, GeometricBrownianMotion.step_analytic]
    rw [hstep, hana]
    intro h
    rw [eq_comm, Real.exp_eq_one_iff] at h
    norm_num at h

/-- Claim C9 as amended: sample_path of the multivariate GBM does obtain
randomness from ambient state: inside its choose_multiple call the reservoir
indices are drawn from a thread local, non seeded generator, so the internal
sampling state reached from identical configuration and identical innovation
streams differs for different ambient generators. -/
theorem claim_C9 :
    ∀ (stream : Nat → ℝ) (a1 a2 : Nat → Nat),
      a1 0 % 2 = 0 → a2 0 % 2 = 1 → stream 0 ≠ stream 1 →
      mvGbmDim1.sample_path_reservoir 1 (distIterOfStream stream) a1 1 ≠
        mvGbmDim1.sample_path_reservoir 1 (distIterOfStream stream) a2 1 := by
  intro stream a1 a2 h1 h2 hne
  have e1 : mvGbmDim1.sample_path_reservoir 1 (distIterOfStream stream) a1 1 =
      [stream 1] := by
    simp [MultivariateGeometricBrownianMotion.sample_path_reservoir, mvGbmDim1,
      chooseMultipleReservoir, collectTake, distIterOfStream, reservoirStep, h1]
  have e2 : mvGbmDim1.sample_path_reservoir 1 (distIterOfStream stream) a2 1 =
      [stream 0] := by
    simp [MultivariateGeometricBrownianMotion.sample_path_reservoir, mvGbmDim1,
      chooseMultipleReservoir, collectTake, distIterOfStream, reservoirStep, h2]
  rw [e1, e2]
  intro hcontra
  injection hcontra with hh _
  exact hne hh.symm

/-- Counterexample to claim C9: with the same configuration and the same
innovation stream, two different ambient generators leave the internal
reservoir of sample_path in different states after one iteration, so
sample_path does consume entropy from the non seeded ambient source. -/
theorem claim_C9_counterexample :
    mvGbmDim1.sample_path_reservoir 1 (distIterOfStream fun n => (n : ℝ))
        (fun _ => 0) 1 ≠
      mvGbmDim1.sample_path_reservoir 1 (distIterOfStream fun n => (n : ℝ))
        (fun _ => 1) 1 := by
  have e1 : mvGbmDim1.sample_path_reservoir 1
      (distIterOfStream fun n => (n : ℝ)) (fun _ => 0) 1 = [(1 : ℝ)] := by
    simp [MultivariateGeometricBrownianMotion.sample_path_reservoir, mvGbmDim1,
      chooseMultipleReservoir, collectTake, distIterOfStream, reservoirStep]
  have e2 : mvGbmDim1.sample_path_reservoir 1
      (distIterOfStream fun n => (n : ℝ)) (fun _ => 1) 1 = [(0 : ℝ)] := by
    simp [MultivariateGeometricBrownianMotion.sample_path_reservoir, mvGbmDim1,
      chooseMultipleReservoir, collectTake, distIterOfStream, reservoirStep]
  rw [e1, e2]
  intro hcontra
  injection hcontra with hh _
  norm_num at hh

/-- Concrete instance of claim C9 as amended, at ambient generators with
constant draws 2 and 3 and the stream of the natural numbers. -/
theorem claim_C9_witness :
    mvGbmDim1.sample_path_reservoir 1 (distIterOfStream fun n => (n : ℝ))
        (fun _ => 2) 1 ≠
      mvGbmDim1.sample_path_reservoir 1 (distIterOfStream fun n => (n : ℝ))
        (fun _ => 3) 1 :=
  claim_C9 (fun n => (n : ℝ)) (fun _ => 2) (fun _ => 3) rfl rfl (by norm_num)

/-- Claim C10: each call of the Distribution implementation of the scalar GBM
returns the analytic one step evolution of the configured initial value at the
freshly drawn innovation, so a sequence of calls maps the successive draws of
the generator through step_analytic from the initial value, never evolving
from a previously returned state; generate_path and generate_in_place instead
advance with the Euler step. -/
theorem claim_C10 :
    (∀ (g : GeometricBrownianMotion) (r : RngState),
      (g.distribution_sample r).1 =
        g.step_analytic g.initial_value (r.stream r.idx)) ∧
    (∀ (g : GeometricBrownianMotion) (r : RngState) (n : Nat),
      g.sampleCalls r n = (List.range n).map fun i =>
        g.step_analytic g.initial_value (r.stream (r.idx + i))) ∧
    (∀ (g : GeometricBrownianMotion) (initial_value z : ℝ) (zs : List ℝ),
      g.generate_path initial_value (z :: zs) =
        initial_value :: g.generate_path (g.step initial_value z) zs) ∧
    (∀ (g : GeometricBrownianMotion) (z : ℝ) (zs : List ℝ),
      g.generate_in_place (z :: zs) =
        g.step g.initial_value z ::
          generateInPlaceLoop g (g.step g.initial_value z) zs) := by
  refine ⟨fun g r => rfl, ?_, ?_, ?_⟩
  · intro g r n
    induction n generalizing r with
    | zero => simp [GeometricBrownianMotion.sampleCalls]
    | succ n ih =>
        rw [List.range_succ_eq_map]
        have harg : ∀ i : Nat, r.idx + 1 + i = r.idx + (i + 1) := fun i => by
          omega
        simp [GeometricBrownianMotion.sampleCalls,
          GeometricBrownianMotion.distribution_sample, RngState.next, ih,
          Function.comp, harg]
  · intro g initial_value z zs
    simp [GeometricBrownianMotion.generate_path, generatePathLoop]
  · intro g z zs
    simp [GeometricBrownianMotion.generate_in_place, generateInPlaceLoop]
